import Mathlib

/-!
Verification of the upload dispatcher and JSON response envelope of the
server-playground repository.

The Go sources are embedded shallowly:
* pure helpers (`filepath.Base`, `filepath.Clean`, `filepath.Ext`,
  `mime.TypeByExtension`, `mime.ExtensionsByType`, `strings.SplitAfter`, …)
  become executable Lean functions translated from their sources;
* `encoding/json` marshalling of the response DTOs is modelled at the level
  of a JSON syntax tree carrying exactly the fields, field names and
  omitempty behaviour of the struct tags;
* the HTTP handlers become state-passing functions over an explicit
  response/filesystem state, with the outcomes of the I/O collaborators
  (multipart parsing, `os.Stat`/`os.Mkdir`/`os.OpenFile`, `io.Copy`,
  `uuid.NewString`) supplied by an environment record.
-/

/-- A JSON value, the wire form produced by `encoding/json` for the
response DTOs.  Numbers are naturals: the only numeric field of the schema
is the `uint16` status code. -/
inductive Json where
  | str (s : String)
  | num (n : Nat)
  | null
  | obj (fields : List (String × Json))

namespace response

/-- Mirrors `response.FileDto`: file name and mime type, with JSON keys
`name` and `mime_type`. -/
structure FileDto where
  name : String
  mimeType : String
deriving DecidableEq

/-- Mirrors `response.JsonDto`: status (`uint16`, JSON key `status`),
message (`message`), error string (`error,omitempty`) and optional file
info (`file,omitempty`).  The Go `ErrorString` field is a plain string
whose zero value "" counts as absent; the Go `File` field is a nullable
pointer, modelled as an `Option`. -/
structure JsonDto where
  status : Nat
  message : String
  errorString : String
  file : Option FileDto
deriving DecidableEq

/-- Models `json.Marshal` applied to a `*JsonDto`.  Go's `Marshal` can fail
only on unsupported kinds (chan/func/complex), unsupported float values,
cyclic values, or failing custom marshalers; `JsonDto`'s fields are a
`uint16`, two `string`s and a `*FileDto`, none of which can produce an
error (invalid UTF-8 in a Go string is replaced, never rejected), so every
value is encoded.  The `omitempty` options of the `error` and `file` tags
drop the field for the zero string and the nil pointer. -/
def goMarshalJsonDto (d : JsonDto) : Option Json :=
  some (Json.obj
    ([("status", Json.num d.status), ("message", Json.str d.message)]
      ++ (if d.errorString = "" then [] else [("error", Json.str d.errorString)])
      ++ (match d.file with
          | none => []
          | some f => [("file", Json.obj
              [("name", Json.str f.name), ("mime_type", Json.str f.mimeType)])])))

/-- First binding of a key in a JSON object's field list, as
`encoding/json` resolves keys for struct fields. -/
def jsonLookup : List (String × Json) → String → Option Json
  | [], _ => none
  | (k, v) :: rest, key => if k = key then some v else jsonLookup rest key

/-- Decoding of a `string`-typed struct field: a missing key leaves the
zero value "", a JSON string is taken verbatim, any other JSON value is an
unmarshalling type error. -/
def unmarshalStringField (fields : List (String × Json)) (key : String) :
    Option String :=
  match jsonLookup fields key with
  | none => some ""
  | some (Json.str s) => some s
  | some _ => none

/-- Decoding of the `uint16`-typed `status` field: a missing key leaves 0,
a JSON number must fit in 16 bits (Go reports an overflow error
otherwise), anything else is a type error. -/
def unmarshalUInt16Field (fields : List (String × Json)) (key : String) :
    Option Nat :=
  match jsonLookup fields key with
  | none => some 0
  | some (Json.num n) => if n < 65536 then some n else none
  | some _ => none

/-- Models `json.Unmarshal` into a fresh `JsonDto`: JSON `null` for the
`file` pointer leaves it nil, a JSON object fills a `FileDto`, anything
else is a type error. -/
def goUnmarshalJsonDto (j : Json) : Option JsonDto :=
  match j with
  | Json.obj fields => do
      let status ← unmarshalUInt16Field fields "status"
      let message ← unmarshalStringField fields "message"
      let errorString ← unmarshalStringField fields "error"
      let file ← match jsonLookup fields "file" with
        | none => some none
        | some Json.null => some none
        | some (Json.obj ffields) => do
            let n ← unmarshalStringField ffields "name"
            let m ← unmarshalStringField ffields "mime_type"
            some (some { name := n, mimeType := m })
        | some _ => none
      some { status := status, message := message,
             errorString := errorString, file := file }
  | _ => none

end response

/-! Models of the `path/filepath` helpers for the Unix build the server
runs on: the only path separator is `/`; backslashes are ordinary file
name characters. -/

/-- Models `filepath.Base` (Unix): "." for the empty path, otherwise strip
trailing slashes and keep everything after the last remaining slash; a
path made only of separators yields "/". -/
def goFilepathBase (p : String) : String :=
  if p.data = [] then "."
  else
    let r1 := p.data.reverse.dropWhile (fun c => c == '/')
    let comp := r1.takeWhile (fun c => c != '/')
    if comp = [] then "/" else String.mk comp.reverse

/-- Models the backtracking step of `filepath.Clean` for a `..` element:
starting from the reversed output buffer with its last character popped,
keep popping while the buffer is longer than the `..`-barrier `dotdot` and
the character just popped was not a slash.  `dropped` is the character
popped most recently. -/
def cleanBacktrackLoop : Char → List Char → Nat → List Char
  | dropped, keptRev, dotdot =>
    if keptRev.length > dotdot ∧ dropped ≠ '/' then
      match keptRev with
      | [] => []
      | c :: rest => cleanBacktrackLoop c rest dotdot
    else keptRev

/-- Entry point of the backtracking of `filepath.Clean`: pop the last
output character and run the loop. -/
def cleanBacktrack (outRev : List Char) (dotdot : Nat) : List Char :=
  match outRev with
  | [] => []
  | c :: rest => cleanBacktrackLoop c rest dotdot

/-- The scanning loop of `filepath.Clean` (Unix), translated case by case
from its `for r < n` loop; the output buffer is kept reversed.  The loop
consumes at least one input character per step, so the fuel
(initialised to the full path length by `goFilepathClean`) never runs out;
the fuel-exhaustion branch is unreachable. -/
def cleanLoop : Nat → List Char → Bool → List Char → Nat → List Char
  | _, [], _, outRev, _ => outRev
  | 0, _, _, outRev, _ => outRev
  | fuel + 1, c :: rest, rooted, outRev, dotdot =>
    if c = '/' then
      cleanLoop fuel rest rooted outRev dotdot
    else if c = '.' ∧ (rest = [] ∨ rest.head? = some '/') then
      cleanLoop fuel rest rooted outRev dotdot
    else if c = '.' ∧ rest.head? = some '.'
        ∧ (rest.tail = [] ∨ rest.tail.head? = some '/') then
      (if outRev.length > dotdot then
        cleanLoop fuel rest.tail rooted (cleanBacktrack outRev dotdot) dotdot
      else if rooted = false then
        (let outRev2 := if outRev.length > 0 then '/' :: outRev else outRev
         cleanLoop fuel rest.tail rooted ('.' :: '.' :: outRev2)
           (outRev2.length + 2))
      else
        cleanLoop fuel rest.tail rooted outRev dotdot)
    else
      (let sep : List Char :=
        if (rooted = true ∧ outRev.length ≠ 1)
            ∨ (rooted = false ∧ outRev.length ≠ 0) then ['/'] else []
       let comp := (c :: rest).takeWhile (fun x => x != '/')
       cleanLoop fuel ((c :: rest).dropWhile (fun x => x != '/')) rooted
         (comp.reverse ++ sep ++ outRev) dotdot)

/-- Models `filepath.Clean` (Unix): "." for the empty path, otherwise the
lexically simplified path computed by the scanning loop, or "." when the
loop produced no output. -/
def goFilepathClean (p : String) : String :=
  if p.data = [] then "."
  else
    let rooted : Bool := p.data.head? == some '/'
    let rem := if rooted then p.data.tail else p.data
    let out0 : List Char := if rooted then ['/'] else []
    let dd0 : Nat := if rooted then 1 else 0
    let outRev := cleanLoop p.data.length rem rooted out0 dd0
    if outRev = [] then "." else String.mk outRev.reverse

/-- The scan of `filepath.Ext` on the reversed path: walk from the end,
stop at a separator with no extension, or return from the last dot. -/
def extAux : List Char → List Char → String
  | [], _ => ""
  | c :: rest, acc =>
    if c = '/' then ""
    else if c = '.' then String.mk ('.' :: acc)
    else extAux rest (c :: acc)

/-- Models `filepath.Ext` (Unix): the suffix of the final path element
starting at its last dot, or "" when there is none. -/
def goFilepathExt (p : String) : String := extAux p.data.reverse []

namespace mime

/-- The tspecial characters of RFC 1521, from the `mime` package's
`isTSpecial`. -/
def isTSpecialChar (c : Char) : Bool :=
  "()<>@,;:\\\"/[]?=".data.contains c

/-- Models `mime.isTokenChar`: printable US-ASCII other than space and
tspecials. -/
def isTokenChar (c : Char) : Bool :=
  0x20 < c.toNat && c.toNat < 0x7f && !(isTSpecialChar c)

/-- Models `mime.consumeToken`: the longest token-character run and the
remainder. -/
def consumeToken (v : List Char) : List Char × List Char :=
  (v.takeWhile isTokenChar, v.dropWhile isTokenChar)

/-- White space as trimmed by the `mime` package via `unicode.IsSpace`,
restricted to the ASCII space characters (the non-ASCII Unicode spaces are
irrelevant to media-type headers and left out of the model). -/
def isSpaceChar (c : Char) : Bool :=
  c == ' ' || c == '\t' || c == '\n' || c == '\x0b' || c == '\x0c' || c == '\r'

/-- `strings.TrimLeftFunc _ unicode.IsSpace` on a character list. -/
def trimLeftSpace (v : List Char) : List Char := v.dropWhile isSpaceChar

/-- `strings.TrimSpace` on a character list. -/
def trimSpace (v : List Char) : List Char :=
  ((v.dropWhile isSpaceChar).reverse.dropWhile isSpaceChar).reverse

/-- ASCII lowering of one character, the relevant fragment of the
`strings.ToLower` the `mime` package applies to media types, parameter
names and extensions (all of which are ASCII here). -/
def asciiLowerChar (c : Char) : Char :=
  if 'A' ≤ c ∧ c ≤ 'Z' then Char.ofNat (c.toNat + 32) else c

/-- ASCII lowering of a character list. -/
def asciiLower (v : List Char) : List Char := v.map asciiLowerChar

/-- ASCII lowering of a string. -/
def asciiLowerStr (s : String) : String := String.mk (asciiLower s.data)

/-- The quoted-string scan of `mime.consumeValue`: characters up to the
closing quote, a backslash escaping exactly the tspecial characters, CR
and LF forbidden; `none` when no closing quote is found or a bare CR/LF
appears. -/
def quotedLoop : List Char → List Char → Option (List Char × List Char)
  | [], _ => none
  | '"' :: rest, acc => some (acc.reverse, rest)
  | '\\' :: c2 :: rest, acc =>
    if isTSpecialChar c2 then quotedLoop rest (c2 :: acc)
    else quotedLoop (c2 :: rest) ('\\' :: acc)
  | c :: rest, acc =>
    if c = '\r' ∨ c = '\n' then none else quotedLoop rest (c :: acc)

/-- Models `mime.consumeValue`: a bare token, or a quoted string.  A
failure leaves the input unconsumed (value empty and remainder equal to
the input), which is how the caller detects it. -/
def consumeValue (v : List Char) : List Char × List Char :=
  match v with
  | [] => ([], [])
  | '"' :: r =>
    (match quotedLoop r [] with
     | some pr => pr
     | none => ([], v))
  | _ => consumeToken v

/-- Models `mime.consumeMediaParam`: `;`, optional spaces, a lowercased
token key, `=`, a value; on any failure the triple `("", "", v)` with the
input unconsumed. -/
def consumeMediaParam (v : List Char) : String × String × List Char :=
  match trimLeftSpace v with
  | ';' :: r1 =>
    let r2 := trimLeftSpace r1
    let tk := consumeToken r2
    let param := asciiLower tk.1
    if param = [] then ("", "", v)
    else
      match trimLeftSpace tk.2 with
      | '=' :: r5 =>
        let r6 := trimLeftSpace r5
        let cv := consumeValue r6
        if cv.1 = [] ∧ cv.2 = r6 then ("", "", v)
        else (String.mk param, String.mk cv.1, cv.2)
      | _ => ("", "", v)
  | _ => ("", "", v)

/-- The parameter loop of `mime.ParseMediaType`, reporting only success or
failure: a parameter that fails to parse is tolerated exactly when the
remainder is a lone trailing semicolon; a duplicate parameter name with a
different value is an error.  (RFC 2231 continuation keys are not modelled;
no caller in this repository produces them.)  Each successful iteration
consumes at least the semicolon, so fuel `v.length + 1` never runs out. -/
def paramsLoop : Nat → List Char → List (String × String) → Bool
  | 0, _, _ => true
  | fuel + 1, v, params =>
    let v1 := trimLeftSpace v
    if v1 = [] then true
    else
      let r := consumeMediaParam v1
      if r.1 = "" then decide (trimSpace r.2.2 = [';'])
      else
        match List.lookup r.1 params with
        | some oldv =>
          if oldv = r.2.1 then paramsLoop fuel r.2.2 ((r.1, r.2.1) :: params)
          else false
        | none => paramsLoop fuel r.2.2 ((r.1, r.2.1) :: params)

/-- Models `mime.checkMediaTypeDisposition` with the package's error
strings: a token, optionally `/` and a second token, nothing after. -/
def checkMediaTypeDisposition (s : List Char) : Except String Unit :=
  let tk := consumeToken s
  if tk.1 = [] then Except.error "mime: no media type"
  else
    match tk.2 with
    | [] => Except.ok ()
    | '/' :: r2 =>
      let tk2 := consumeToken r2
      if tk2.1 = [] then Except.error "mime: expected token after slash"
      else if tk2.2 ≠ [] then
        Except.error "mime: unexpected content after media subtype"
      else Except.ok ()
    | _ => Except.error "mime: expected slash after first token"

/-- Models `mime.ParseMediaType` up to the data the dispatcher consumes:
the lowercased, trimmed type/subtype before any `;`, validated, with the
parameter list checked for well-formedness (the parameter values
themselves are discarded by every caller in this repository). -/
def ParseMediaType (v : String) : Except String String :=
  let base := v.data.takeWhile (fun c => c != ';')
  let mediatype := trimSpace (asciiLower base)
  match checkMediaTypeDisposition mediatype with
  | Except.error e => Except.error e
  | Except.ok _ =>
    let rest := v.data.drop base.length
    if paramsLoop (rest.length + 1) rest [] then Except.ok (String.mk mediatype)
    else Except.error "mime: invalid media parameter"

/-- The `mime` package's builtin extension table (`builtinTypesLower` in
`mime/type.go`), extension to media type.  Entries loaded at run time from
the host's mime.types files vary by machine and are not modelled. -/
def mimeTypesTable : List (String × String) :=
  [(".avif", "image/avif"),
   (".css", "text/css; charset=utf-8"),
   (".gif", "image/gif"),
   (".htm", "text/html; charset=utf-8"),
   (".html", "text/html; charset=utf-8"),
   (".jpeg", "image/jpeg"),
   (".jpg", "image/jpeg"),
   (".js", "text/javascript; charset=utf-8"),
   (".json", "application/json"),
   (".mjs", "text/javascript; charset=utf-8"),
   (".pdf", "application/pdf"),
   (".png", "image/png"),
   (".svg", "image/svg+xml"),
   (".wasm", "application/wasm"),
   (".webp", "image/webp"),
   (".xml", "text/xml; charset=utf-8")]

/-- Models `mime.TypeByExtension` over the builtin table: a case-sensitive
lookup, then a lowercased one, then "". -/
def TypeByExtension (ext : String) : String :=
  match List.lookup ext mimeTypesTable with
  | some t => t
  | none => (List.lookup (asciiLowerStr ext) mimeTypesTable).getD ""

/-- The inverse extension table derived from the builtin entries, media
type to the sorted extension list, as `mime.ExtensionsByType` returns it
(the function sorts its result). -/
def extensionsTable : List (String × List String) :=
  [("application/json", [".json"]),
   ("application/pdf", [".pdf"]),
   ("application/wasm", [".wasm"]),
   ("image/avif", [".avif"]),
   ("image/gif", [".gif"]),
   ("image/jpeg", [".jpeg", ".jpg"]),
   ("image/png", [".png"]),
   ("image/svg+xml", [".svg"]),
   ("image/webp", [".webp"]),
   ("text/css", [".css"]),
   ("text/html", [".htm", ".html"]),
   ("text/javascript", [".js", ".mjs"]),
   ("text/xml", [".xml"])]

/-- Models `mime.ExtensionsByType`: parse the media type (propagating its
error), then look up the registered extensions; an unknown type is a
success with no candidates. -/
def ExtensionsByType (typ : String) : Except String (List String) :=
  match ParseMediaType typ with
  | Except.error e => Except.error e
  | Except.ok mt => Except.ok ((List.lookup mt extensionsTable).getD [])

end mime

/-- One write to the HTTP response body: either plain text (as written by
`http.Error` and the handlers) or a marshalled JSON document (as written
by `response.Error`). -/
inductive BodyChunk where
  | text (s : String)
  | json (j : Json)

/-- The observable state of an `http.ResponseWriter`: the headers set, the
explicitly written status code (`none` while `WriteHeader` has not been
called), and the sequence of body writes. -/
structure HttpResponse where
  headers : List (String × String)
  status : Option Nat
  writes : List BodyChunk

/-- `WriteHeader` semantics: only the first explicitly written status code
takes effect; superfluous calls are ignored. -/
def writeHeaderOnce (st : Option Nat) (code : Nat) : Option Nat :=
  match st with
  | some c => some c
  | none => some code

/-- Models `http.Error`: set the plain-text content type and the no-sniff
header, write the status code, and append the message and a newline to the
body. -/
def httpErrorResp (r : HttpResponse) (msg : String) (code : Nat) : HttpResponse :=
  { headers := r.headers
      ++ [("Content-Type", "text/plain; charset=utf-8"),
          ("X-Content-Type-Options", "nosniff")],
    status := writeHeaderOnce r.status code,
    writes := r.writes ++ [BodyChunk.text (msg ++ "\n")] }

/-- Models `response.NewFileDto`: the name is
`filepath.Clean(filepath.Base(fileName))` and the mime type is looked up
from the cleaned name's extension. -/
def response.NewFileDto (fileName : String) : response.FileDto :=
  let name := goFilepathClean (goFilepathBase fileName)
  { name := name, mimeType := mime.TypeByExtension (goFilepathExt name) }

/-- Models `response.Error`: set a JSON content type and the no-sniff
header, write the given status code, marshal an envelope holding only the
status and the error string, and print it to the body.  The result is
`none` exactly on the `panic(err)` branch, i.e. when marshalling fails. -/
def response.Error (error : String) (code : Nat) : Option HttpResponse :=
  match response.goMarshalJsonDto
      { status := code, message := "", errorString := error, file := none } with
  | none => none
  | some jsonData =>
    some { headers := [("Content-Type", "application/json"),
                       ("X-Content-Type-Options", "nosniff")],
           status := some code,
           writes := [BodyChunk.json jsonData] }

namespace upload

/-- The constant `uploadDir` of the upload package. -/
def uploadDir : String := "./files/"

/-- Models `mime/multipart.Part.FileName` (Go 1.17 and later), the source
of `FileHeader.Filename` that `handleForm` stores under: an empty
`filename` parameter stays empty, any other is passed through
`filepath.Base`. -/
def multipartFileName (declared : String) : String :=
  if declared = "" then "" else goFilepathBase declared

/-- The request data the dispatcher inspects. -/
structure Request where
  method : String
  contentType : String

/-- Outcome of `Request.ParseMultipartForm` for a request whose
Content-Type begins with the multipart prefix: success, the sentinel
`http.ErrNotMultipart` (e.g. for a malformed multipart media type), or any
other parse error. -/
inductive ParseFormResult where
  | ok
  | errNotMultipart
  | errOther
deriving DecidableEq

/-- Environment oracle fixing the outcomes of the host collaborators for
one request: multipart parsing, the declared file name of the `file` form
field (`none` when `FormFile` fails), the generated token of
`uuid.NewString`, and the filesystem outcomes consumed by `handleFile`. -/
structure Env where
  parseFormResult : ParseFormResult
  formFile : Option String
  uuid : String
  dirExists : Bool
  mkdirOk : Bool
  openOk : Bool
  copyOk : Bool

/-- The Go error value a handler returns to `handlePost`: the
`http.ErrNotMultipart` sentinel, the `http.ErrNotSupported` sentinel, or
any other non-nil error (whose identity `handlePost` never inspects). -/
inductive UploadErr where
  | notMultipart
  | notSupported
  | other
deriving DecidableEq

/-- The filesystem effects of one request: whether the upload directory
was created and the path of the file created by `os.OpenFile`, if any
(the file exists from that point on even if the later copy fails). -/
structure Fs where
  dirCreated : Bool
  fileWritten : Option String

/-- The full observable state of one request: HTTP response and
filesystem. -/
structure UploadState where
  resp : HttpResponse
  fs : Fs

/-- The state before any handler ran. -/
def initState : UploadState :=
  { resp := { headers := [], status := none, writes := [] },
    fs := { dirCreated := false, fileWritten := none } }

/-- The Content-Type test both handlers perform:
`strings.HasPrefix(r.Header.Get("Content-Type"), "multipart/form-data")`. -/
def isMultipartFormData (contentType : String) : Bool :=
  "multipart/form-data".data.isPrefixOf contentType.data

/-- Models `createUploadDir`: nothing to do when the directory exists,
otherwise `os.Mkdir` with the environment's outcome; `none` is the error
case. -/
def createUploadDir (env : Env) (fs : Fs) : Option Fs :=
  if env.dirExists then some fs
  else if env.mkdirOk then some { fs with dirCreated := true }
  else none

/-- Models `handleFile`: ensure the upload directory, create the file at
`filePath` (recorded in the filesystem state as soon as `os.OpenFile`
succeeds), copy the content, and write `201 Created`; each failure is
written to the response as a 500 and returned as an error. -/
def handleFile (env : Env) (st : UploadState) (filePath : String) :
    UploadState × Option UploadErr :=
  match createUploadDir env st.fs with
  | none =>
    ({ st with resp := httpErrorResp st.resp "mkdir failed" 500 },
     some UploadErr.other)
  | some fs1 =>
    if env.openOk then
      let st2 : UploadState :=
        { st with fs := { fs1 with fileWritten := some filePath } }
      if env.copyOk then
        ({ st2 with resp :=
            { st2.resp with status := writeHeaderOnce st2.resp.status 201 } },
         none)
      else
        ({ st2 with resp := httpErrorResp st2.resp "copy failed" 500 },
         some UploadErr.other)
    else
      ({ st with
          fs := fs1
          resp := httpErrorResp st.resp "open failed" 500 },
       some UploadErr.other)

/-- Models `handleForm`: requests without the multipart prefix are bounced
back with `http.ErrNotMultipart` and no response written; a parse failure
is a 400; a missing form file is a 500; otherwise the file is persisted at
the upload directory joined with the part's file name. -/
def handleForm (req : Request) (env : Env) (st : UploadState) :
    UploadState × Option UploadErr :=
  if isMultipartFormData req.contentType then
    match env.parseFormResult with
    | ParseFormResult.errNotMultipart =>
      ({ st with resp := httpErrorResp st.resp "request Content-Type isn't multipart/form-data" 400 },
       some UploadErr.notMultipart)
    | ParseFormResult.errOther =>
      ({ st with resp := httpErrorResp st.resp "multipart parse error" 400 },
       some UploadErr.other)
    | ParseFormResult.ok =>
      match env.formFile with
      | none =>
        ({ st with resp := httpErrorResp st.resp "http: no such file" 500 },
         some UploadErr.other)
      | some declared =>
        handleFile env st (uploadDir ++ multipartFileName declared)
  else (st, some UploadErr.notMultipart)

/-- Models `strings.SplitAfter` with a one-character separator: the input
split after each occurrence of the separator. -/
def splitAfterAux (sep : Char) : List Char → List (List Char)
  | [] => [[]]
  | c :: rest =>
    if c = sep then [c] :: splitAfterAux sep rest
    else
      match splitAfterAux sep rest with
      | [] => [[c]]
      | g :: gs => (c :: g) :: gs

/-- `strings.SplitAfter` on strings. -/
def goSplitAfter (s : String) (sep : Char) : List String :=
  (splitAfterAux sep s.data).map String.mk

/-- `strings.HasSuffix`. -/
def strEndsWith (s pat : String) : Bool :=
  pat.data.reverse.isPrefixOf s.data.reverse

/-- The candidate scan of `handleOther`: the first extension whose suffix
matches `preferred`, or "" when none does (Go's loop leaves `ext` at its
zero value). -/
def extLoop : List String → String → String
  | [], _ => ""
  | c :: cs, preferred =>
    if strEndsWith c preferred then c else extLoop cs preferred

/-- Models `handleOther`: a multipart request is bounced back with
`http.ErrNotSupported`; a content type `mime.ExtensionsByType` rejects is
a 500; otherwise the extension is chosen from the candidates — preferring
the one whose suffix matches `strings.SplitAfter(contentType, "/")[1]`,
falling back to the first candidate — and the body is persisted at the
upload directory joined with the generated token and that extension.
(When the candidate list is non-empty the content type always contains a
slash, so the `[1]` index Go takes cannot panic; the model totalises it
with an empty default.) -/
def handleOther (req : Request) (env : Env) (st : UploadState) :
    UploadState × Option UploadErr :=
  if isMultipartFormData req.contentType then (st, some UploadErr.notSupported)
  else
    match mime.ExtensionsByType req.contentType with
    | Except.error e =>
      ({ st with resp := httpErrorResp st.resp e 500 }, some UploadErr.other)
    | Except.ok typeCandidates =>
      let ext :=
        if typeCandidates.length > 0 then
          let preferred := ((goSplitAfter req.contentType '/').drop 1).headD ""
          let found := extLoop typeCandidates preferred
          if found = "" then typeCandidates.headD "" else found
        else ""
      handleFile env st (uploadDir ++ env.uuid ++ ext)

/-- Models `handlePost`: run `handleForm`; stop unless it signalled
`http.ErrNotMultipart`; then run `handleOther` and turn its
`http.ErrNotSupported` into a 415, leaving every other outcome as the
handler wrote it. -/
def handlePost (req : Request) (env : Env) (st : UploadState) : UploadState :=
  let fr := handleForm req env st
  if fr.2 = none ∨ (fr.2 ≠ none ∧ fr.2 ≠ some UploadErr.notMultipart) then fr.1
  else
    let ho := handleOther req env fr.1
    if ho.2 ≠ none ∧ ho.2 = some UploadErr.notSupported then
      { ho.1 with resp := httpErrorResp ho.1.resp "feature not supported" 415 }
    else ho.1

/-- Models `ApiEndpoint`: POST requests are dispatched to `handlePost`,
everything else is answered `405 Method Not Allowed` by `http.Error`. -/
def ApiEndpoint (req : Request) (env : Env) : UploadState :=
  if req.method = "POST" then handlePost req env initState
  else { initState with
         resp := httpErrorResp initState.resp "method not allowed" 405 }

end upload

/-! Helper lemmas about the filepath models. -/

/-- The element at which `dropWhile` stops fails the predicate. -/
theorem dropWhile_head_false {α : Type} (p : α → Bool) (l : List α) (c : α)
    (rest : List α) (h : l.dropWhile p = c :: rest) : p c = false := by
  induction l with
  | nil => simp at h
  | cons a as ih =>
    by_cases hpa : p a
    · rw [List.dropWhile_cons, if_pos hpa] at h
      exact ih h
    · rw [List.dropWhile_cons, if_neg hpa] at h
      cases h
      simpa [Bool.not_eq_true] using hpa

/-- For any path with at least one non-separator character,
`filepath.Base` yields a non-empty name containing no separator. -/
theorem goFilepathBase_spec (p : String) (h : ∃ c ∈ p.data, c ≠ '/') :
    (goFilepathBase p).data ≠ [] ∧ ∀ c ∈ (goFilepathBase p).data, c ≠ '/' := by
  obtain ⟨c0, hc0mem, hc0⟩ := h
  have hdata : ¬ p.data = [] := by
    intro hd
    rw [hd] at hc0mem
    simp at hc0mem
  have hr1ne : p.data.reverse.dropWhile (fun c => c == '/') ≠ [] := by
    intro hnil
    have hall := List.dropWhile_eq_nil_iff.mp hnil c0 (by simpa using hc0mem)
    simp at hall
    exact hc0 hall
  obtain ⟨c1, rest1, hr1⟩ :
      ∃ c1 rest1, p.data.reverse.dropWhile (fun c => c == '/') = c1 :: rest1 := by
    rcases hd : p.data.reverse.dropWhile (fun c => c == '/') with _ | ⟨a, b⟩
    · exact absurd hd hr1ne
    · exact ⟨a, b, rfl⟩
  have hc1 : (c1 == '/') = false :=
    dropWhile_head_false (fun c => c == '/') p.data.reverse c1 rest1 hr1
  have hcompne : (c1 :: rest1).takeWhile (fun c => c != '/') ≠ [] := by
    rw [List.takeWhile_cons]
    simp [bne, hc1]
  unfold goFilepathBase
  rw [if_neg hdata]
  simp only [hr1]
  rw [if_neg hcompne]
  refine ⟨by simpa using hcompne, ?_⟩
  intro c hcmem
  simp only [List.mem_reverse] at hcmem
  have := List.mem_takeWhile_imp hcmem
  simpa [bne] using this

/-- On a non-empty separator-free input the cleaning loop returns the
input unchanged (reversed), except for the `.` and `..` elements it
normalises. -/
theorem cleanLoop_no_slash (c : Char) (rest : List Char)
    (h : ∀ x ∈ c :: rest, x ≠ '/') :
    cleanLoop (rest.length + 1) (c :: rest) false [] 0 =
      (if c = '.' ∧ rest = [] then []
       else if c = '.' ∧ rest = ['.'] then ['.', '.']
       else (c :: rest).reverse) := by
  have hc : ¬ (c = '/') := h c (by simp)
  by_cases h2 : c = '.' ∧ rest = []
  · obtain ⟨rfl, rfl⟩ := h2
    simp [cleanLoop]
  · by_cases h3 : c = '.' ∧ rest = ['.']
    · obtain ⟨rfl, rfl⟩ := h3
      simp [cleanLoop, h2]
    · rw [if_neg h2, if_neg h3]
      have hcond2 : ¬ (c = '.' ∧ (rest = [] ∨ rest.head? = some '/')) := by
        rintro ⟨hcdot, hrest | hhead⟩
        · exact h2 ⟨hcdot, hrest⟩
        · have hmem : '/' ∈ rest := List.mem_of_mem_head? (by simp [hhead, Option.mem_def])
          exact h '/' (by simp [hmem]) rfl
      have hcond3 : ¬ (c = '.' ∧ rest.head? = some '.'
          ∧ (rest.tail = [] ∨ rest.tail.head? = some '/')) := by
        rintro ⟨hcdot, hhead, htail | htailhead⟩
        · rcases rest with _ | ⟨r0, rrest⟩
          · simp at hhead
          · simp at hhead htail
            exact h3 ⟨hcdot, by simp [hhead, htail]⟩
        · have hmem : '/' ∈ rest.tail :=
            List.mem_of_mem_head? (by simp [htailhead, Option.mem_def])
          exact h '/' (by simp [List.mem_of_mem_tail hmem]) rfl
      have hall : ∀ x ∈ c :: rest, (x != '/') = true := by
        intro x hx
        simpa [bne] using h x hx
      simp only [cleanLoop, if_neg hc, if_neg hcond2, if_neg hcond3]
      rw [List.takeWhile_eq_self_iff.mpr hall,
          List.dropWhile_eq_nil_iff.mpr hall]
      simp [cleanLoop]

/-- `filepath.Clean` is the identity on non-empty separator-free names:
exactly the names `filepath.Base` can produce besides "/" and ".". -/
theorem goFilepathClean_of_no_slash (s : String) (hne : s.data ≠ [])
    (h : ∀ c ∈ s.data, c ≠ '/') : goFilepathClean s = s := by
  obtain ⟨l⟩ := s
  simp only at hne h ⊢
  obtain ⟨c, rest, rfl⟩ : ∃ c rest, l = c :: rest := by
    rcases l with _ | ⟨a, b⟩
    · exact absurd rfl hne
    · exact ⟨a, b, rfl⟩
  have hc : c ≠ '/' := h c (by simp)
  unfold goFilepathClean
  rw [if_neg (by simp)]
  simp only [List.head?_cons, List.tail_cons]
  have hrooted : ((some c == some '/') : Bool) = false := by simpa using hc
  simp only [hrooted, Bool.false_eq_true, if_false]
  rw [show (c :: rest).length = rest.length + 1 from rfl, cleanLoop_no_slash c rest h]
  by_cases h2 : c = '.' ∧ rest = []
  · obtain ⟨rfl, rfl⟩ := h2
    simp
  · rw [if_neg h2]
    by_cases h3 : c = '.' ∧ rest = ['.']
    · obtain ⟨rfl, rfl⟩ := h3
      simp
    · rw [if_neg h3]
      rw [if_neg (by simp)]
      simp

/-! The claims. -/

/-- Claim C3: for every ResponseEnvelope value — any status in the full
unsigned 16-bit range, any message string (including empty and non-ASCII),
any errorText string or absent, and file either absent or any FileInfo
with any name/mimeType strings including empty — deserializing the
serialization of the value yields a value equal to it field-for-field,
including optional-field presence and absence. -/
theorem jsonDto_roundtrip (d : response.JsonDto) (h : d.status < 65536) :
    ∃ j, response.goMarshalJsonDto d = some j
      ∧ response.goUnmarshalJsonDto j = some d := by
  refine ⟨_, rfl, ?_⟩
  rcases d with ⟨st, msg, err, file⟩
  by_cases he : err = "" <;> cases file <;>
    simp [response.goUnmarshalJsonDto, response.goMarshalJsonDto,
      response.jsonLookup, response.unmarshalStringField,
      response.unmarshalUInt16Field, he, h] at h ⊢

/-- Witness for C3 at status 65535, a non-ASCII message, absent error text
and a FileInfo with empty strings. -/
theorem jsonDto_roundtrip_witness :
    (65535 < 65536) ∧
    ∃ j, response.goMarshalJsonDto
        { status := 65535, message := "héllo", errorString := "",
          file := some { name := "", mimeType := "" } } = some j ∧
      response.goUnmarshalJsonDto j = some
        { status := 65535, message := "héllo", errorString := "",
          file := some { name := "", mimeType := "" } } :=
  ⟨by decide, jsonDto_roundtrip _ (by decide)⟩

/-- Claim C9: each optional field of the envelope — errorText and file —
is omitted from the serialized JSON form when absent (the zero string, the
nil pointer) and present when set. -/
theorem optional_fields_presence (d : response.JsonDto) :
    ∃ fields, response.goMarshalJsonDto d = some (Json.obj fields) ∧
      ((response.jsonLookup fields "error").isSome ↔ d.errorString ≠ "") ∧
      ((response.jsonLookup fields "file").isSome ↔ d.file.isSome) := by
  refine ⟨_, rfl, ?_, ?_⟩ <;>
  · rcases d with ⟨st, msg, err, file⟩
    by_cases he : err = "" <;> cases file <;>
      simp [response.jsonLookup, he, response.goMarshalJsonDto]

/-- Claim C10: the error writer never panics — marshalling the envelope it
constructs (status and error text only) always succeeds, so the panic
branch after `json.Marshal` (the `none` case of the model) is
unreachable. -/
theorem error_writer_never_panics (msg : String) (code : Nat) :
    (response.Error msg code).isSome = true := by
  simp [response.Error, response.goMarshalJsonDto]

/-- Claim C6: for every status code in [100, 511] and every error string,
`response.Error` sets the response's status code to exactly the given
code, sets a JSON content-type header, and produces a body that
deserializes to an envelope whose status equals the given code and whose
error text equals the given string. -/
theorem error_status_and_body (msg : String) (code : Nat)
    (h1 : 100 ≤ code) (h2 : code ≤ 511) :
    ∃ resp j, response.Error msg code = some resp ∧
      resp.status = some code ∧
      ("Content-Type", "application/json") ∈ resp.headers ∧
      resp.writes = [BodyChunk.json j] ∧
      ∃ d, response.goUnmarshalJsonDto j = some d ∧
        d.status = code ∧ d.errorString = msg := by
  refine ⟨_, _, rfl, rfl, by simp, rfl, ⟨⟨code, "", msg, none⟩, ?_, rfl, rfl⟩⟩
  have hc : code < 65536 := by omega
  by_cases he : msg = "" <;>
    simp [response.goUnmarshalJsonDto, response.goMarshalJsonDto,
      response.jsonLookup, response.unmarshalStringField,
      response.unmarshalUInt16Field, he, hc]

/-- Witness for C6 at code 404 and error string "boom". -/
theorem error_status_and_body_witness :
    (100 ≤ 404 ∧ 404 ≤ 511) ∧
    (∃ resp j, response.Error "boom" 404 = some resp ∧
      resp.status = some 404 ∧
      ("Content-Type", "application/json") ∈ resp.headers ∧
      resp.writes = [BodyChunk.json j] ∧
      ∃ d, response.goUnmarshalJsonDto j = some d ∧
        d.status = 404 ∧ d.errorString = "boom") :=
  ⟨by decide, error_status_and_body "boom" 404 (by decide) (by decide)⟩

/-- Claim C7: any request to the upload endpoint whose method is not POST
is answered 405 Method Not Allowed, with no file created and no directory
created. -/
theorem non_post_is_405_no_write (req : upload.Request) (env : upload.Env)
    (h : req.method ≠ "POST") :
    (upload.ApiEndpoint req env).resp.status = some 405 ∧
    (upload.ApiEndpoint req env).fs.dirCreated = false ∧
    (upload.ApiEndpoint req env).fs.fileWritten = none := by
  simp [upload.ApiEndpoint, h, httpErrorResp, upload.initState, writeHeaderOnce]

/-- Witness for C7 at a GET request. -/
theorem non_post_is_405_no_write_witness :
    ("GET" ≠ "POST") ∧
    ((upload.ApiEndpoint { method := "GET", contentType := "" }
        { parseFormResult := upload.ParseFormResult.ok, formFile := none,
          uuid := "u5", dirExists := false, mkdirOk := true,
          openOk := true, copyOk := true }).resp.status = some 405 ∧
      (upload.ApiEndpoint { method := "GET", contentType := "" }
        { parseFormResult := upload.ParseFormResult.ok, formFile := none,
          uuid := "u5", dirExists := false, mkdirOk := true,
          openOk := true, copyOk := true }).fs.dirCreated = false ∧
      (upload.ApiEndpoint { method := "GET", contentType := "" }
        { parseFormResult := upload.ParseFormResult.ok, formFile := none,
          uuid := "u5", dirExists := false, mkdirOk := true,
          openOk := true, copyOk := true }).fs.fileWritten = none) :=
  ⟨by decide, non_post_is_405_no_write _ _ (by decide)⟩

/-- Claim C2: a successful form upload with declared part file name F is
written under the upload directory at exactly the base component of F,
which contains no directory separator — even when F contains directory
separators.  (A name with no separator-free character at all cannot be
created as a file, so successful uploads satisfy the hypothesis.) -/
theorem form_upload_stores_base_name (req : upload.Request) (env : upload.Env)
    (F : String)
    (hm : req.method = "POST")
    (hct : upload.isMultipartFormData req.contentType = true)
    (hp : env.parseFormResult = upload.ParseFormResult.ok)
    (hf : env.formFile = some F)
    (hd : env.dirExists = true) (ho : env.openOk = true) (hcp : env.copyOk = true)
    (hF : ∃ c ∈ F.data, c ≠ '/') :
    (upload.ApiEndpoint req env).fs.fileWritten
        = some (upload.uploadDir ++ goFilepathBase F) ∧
      ∀ c ∈ (goFilepathBase F).data, c ≠ '/' := by
  have hFne : ¬ (F = "") := by
    obtain ⟨c0, hc0, _⟩ := hF
    intro hFe
    subst hFe
    simp at hc0
  refine ⟨?_, (goFilepathBase_spec F hF).2⟩
  simp only [upload.ApiEndpoint, hm, if_pos, upload.handlePost, upload.handleForm,
    hct, if_true, hp, hf, upload.handleFile, upload.createUploadDir, hd, ho, hcp,
    upload.multipartFileName, hFne, upload.initState, writeHeaderOnce, if_false,
    ite_true, ite_false]
  simp

/-- Witness for C2 at the declared name "dir/sub/test.txt". -/
theorem form_upload_stores_base_name_witness :
    (∃ c ∈ ("dir/sub/test.txt" : String).data, c ≠ '/') ∧
    ((upload.ApiEndpoint
        { method := "POST", contentType := "multipart/form-data; boundary=b" }
        { parseFormResult := upload.ParseFormResult.ok,
          formFile := some "dir/sub/test.txt", uuid := "u3", dirExists := true,
          mkdirOk := true, openOk := true, copyOk := true }).fs.fileWritten
        = some (upload.uploadDir ++ goFilepathBase "dir/sub/test.txt") ∧
      ∀ c ∈ (goFilepathBase "dir/sub/test.txt").data, c ≠ '/') :=
  ⟨by decide,
   form_upload_stores_base_name
     { method := "POST", contentType := "multipart/form-data; boundary=b" }
     { parseFormResult := upload.ParseFormResult.ok,
       formFile := some "dir/sub/test.txt", uuid := "u3", dirExists := true,
       mkdirOk := true, openOk := true, copyOk := true }
     "dir/sub/test.txt" rfl (by decide) rfl rfl rfl rfl rfl (by decide)⟩

/-- The notion of "a name with no directory component" of claim C4, which
counts both slash-style and backslash-style separators as directory
separators, following the claim's own wording. -/
def specNoDirComponent (s : String) : Bool :=
  s.data.all (fun c => !(c == '/' || c == '\\'))

/-- Counterexample to claim C4 as stated: on the Unix path semantics the
code runs under, a backslash-style input path passes through
`NewFileDto` unchanged — the resulting name still contains every
backslash separator, so it is not free of directory components in the
claim's slash-or-backslash sense. -/
theorem NewFileDto_backslash_counterexample :
    ("C:\\Users\\user\\TEST.docx".data.contains '\\' = true) ∧
    ((response.NewFileDto "C:\\Users\\user\\TEST.docx").name
        = "C:\\Users\\user\\TEST.docx") ∧
    (specNoDirComponent (response.NewFileDto "C:\\Users\\user\\TEST.docx").name
        = false) := by
  decide

/-- Claim C4, amended: for every raw input path with at least one
non-slash character, `NewFileDto` yields a name containing no slash-style
separator (backslash-style separators are ordinary characters on the Unix
build and are preserved), and a mimeType equal to the extension-based
lookup for the cleaned name's extension (empty when unmapped). -/
theorem NewFileDto_slash_cleaned (s : String) (h : ∃ c ∈ s.data, c ≠ '/') :
    (∀ c ∈ (response.NewFileDto s).name.data, c ≠ '/') ∧
    (response.NewFileDto s).mimeType =
      mime.TypeByExtension (goFilepathExt (response.NewFileDto s).name) := by
  have hb := goFilepathBase_spec s h
  have hcl := goFilepathClean_of_no_slash (goFilepathBase s) hb.1 hb.2
  refine ⟨?_, rfl⟩
  intro c hcmem
  have hname : (response.NewFileDto s).name = goFilepathBase s := by
    simp [response.NewFileDto, hcl]
  rw [hname] at hcmem
  exact hb.2 c hcmem

/-- Witness for the amended C4 at the slash-style path
"/home/user/pic.PNG" (whose uppercase extension exercises the
case-insensitive mime lookup). -/
theorem NewFileDto_slash_cleaned_witness :
    (∃ c ∈ ("/home/user/pic.PNG" : String).data, c ≠ '/') ∧
    ((∀ c ∈ (response.NewFileDto "/home/user/pic.PNG").name.data, c ≠ '/') ∧
      (response.NewFileDto "/home/user/pic.PNG").mimeType =
        mime.TypeByExtension
          (goFilepathExt (response.NewFileDto "/home/user/pic.PNG").name)) :=
  ⟨by decide, NewFileDto_slash_cleaned _ (by decide)⟩

/-- Counterexample to claim C1 as stated: a successfully persisted form
upload is answered 201 Created with an empty body — no serialized
envelope (which would be a body write) is produced, because `handleFile`
only calls `WriteHeader` on success and the upload package never touches
the response package. -/
theorem upload_success_no_envelope_counterexample :
    (upload.ApiEndpoint
        { method := "POST", contentType := "multipart/form-data; boundary=xyz" }
        { parseFormResult := upload.ParseFormResult.ok, formFile := some "test.txt",
          uuid := "u1", dirExists := true, mkdirOk := true,
          openOk := true, copyOk := true }).resp.status = some 201 ∧
    (upload.ApiEndpoint
        { method := "POST", contentType := "multipart/form-data; boundary=xyz" }
        { parseFormResult := upload.ParseFormResult.ok, formFile := some "test.txt",
          uuid := "u1", dirExists := true, mkdirOk := true,
          openOk := true, copyOk := true }).resp.writes = [] :=
  ⟨rfl, rfl⟩

/-- Inside `handleFile`, a 201 status implies the body is untouched: every
failure branch writes a 500 over a virgin status, and the success branch
writes no body at all. -/
theorem handleFile_201_writes (env : upload.Env) (st : upload.UploadState)
    (p : String)
    (hs : st.resp.status = none) (hw : st.resp.writes = [])
    (h : (upload.handleFile env st p).1.resp.status = some 201) :
    (upload.handleFile env st p).1.resp.writes = [] := by
  unfold upload.handleFile upload.createUploadDir at h ⊢
  by_cases hd : env.dirExists <;>
  by_cases hmk : env.mkdirOk <;>
  by_cases hop : env.openOk <;>
  by_cases hcp : env.copyOk <;>
  simp_all [httpErrorResp, writeHeaderOnce]

/-- `handleFile` returns either no error or a plain error, never one of
the two sentinels `handlePost` dispatches on. -/
theorem handleFile_err_shape (env : upload.Env) (st : upload.UploadState)
    (p : String) :
    (upload.handleFile env st p).2 = none
      ∨ (upload.handleFile env st p).2 = some upload.UploadErr.other := by
  unfold upload.handleFile upload.createUploadDir
  by_cases hd : env.dirExists <;>
  by_cases hmk : env.mkdirOk <;>
  by_cases hop : env.openOk <;>
  by_cases hcp : env.copyOk <;>
  simp_all

/-- Claim C1, amended: every request the upload endpoint answers with
201 Created has an empty response body — the handler writes no envelope
(and no other body bytes) on success, on either the form path or the
raw-body path. -/
theorem success_201_has_empty_body (req : upload.Request) (env : upload.Env)
    (h : (upload.ApiEndpoint req env).resp.status = some 201) :
    (upload.ApiEndpoint req env).resp.writes = [] := by
  by_cases hm : req.method = "POST"
  · unfold upload.ApiEndpoint at h ⊢
    rw [if_pos hm] at h ⊢
    unfold upload.handlePost at h ⊢
    by_cases hct : upload.isMultipartFormData req.contentType
    · rcases hpf : env.parseFormResult with _ | _ | _
      · rcases hff : env.formFile with _ | F
        · simp_all [upload.handleForm, hct, hpf, hff, httpErrorResp,
            writeHeaderOnce, upload.initState]
        · simp only [upload.handleForm, hct, if_true, hpf, hff] at h ⊢
          rcases handleFile_err_shape env upload.initState
              (upload.uploadDir ++ upload.multipartFileName F) with he | he <;>
            simp only [he, ne_eq, reduceCtorEq, not_false_eq_true, and_self,
              or_true, true_or, if_true, not_true_eq_false, and_false, or_false,
              if_false] at h ⊢ <;>
          exact handleFile_201_writes env upload.initState _ rfl rfl h
      · simp_all [upload.handleForm, hct, hpf, upload.handleOther,
          httpErrorResp, writeHeaderOnce, upload.initState]
      · simp_all [upload.handleForm, hct, hpf, upload.handleOther,
          httpErrorResp, writeHeaderOnce, upload.initState]
    · simp only [upload.handleForm, hct, if_false, Bool.false_eq_true] at h ⊢
      rcases hE : mime.ExtensionsByType req.contentType with e | cands
      · simp_all [upload.handleOther, hct, hE, httpErrorResp, writeHeaderOnce,
          upload.initState]
      · simp only [upload.handleOther, hct, hE, if_false, Bool.false_eq_true,
          reduceCtorEq, ne_eq, not_false_eq_true, and_self, or_false, false_or,
          and_false, if_true, not_true_eq_false] at h ⊢
        rcases handleFile_err_shape env upload.initState
            (upload.uploadDir ++ env.uuid
              ++ (if cands.length > 0 then
                    (let preferred :=
                      ((upload.goSplitAfter req.contentType '/').drop 1).headD ""
                     let found := upload.extLoop cands preferred
                     if found = "" then cands.headD "" else found)
                  else "")) with he | he <;>
          simp_all <;>
        exact handleFile_201_writes env upload.initState _ rfl rfl h
  · simp_all [upload.ApiEndpoint, hm, httpErrorResp, writeHeaderOnce,
      upload.initState]

/-- Witness for the amended C1 at a successful raw-body PNG upload. -/
theorem success_201_has_empty_body_witness :
    (upload.ApiEndpoint { method := "POST", contentType := "image/png" }
        { parseFormResult := upload.ParseFormResult.ok, formFile := none,
          uuid := "u2", dirExists := true, mkdirOk := true,
          openOk := true, copyOk := true }).resp.status = some 201 ∧
    (upload.ApiEndpoint { method := "POST", contentType := "image/png" }
        { parseFormResult := upload.ParseFormResult.ok, formFile := none,
          uuid := "u2", dirExists := true, mkdirOk := true,
          openOk := true, copyOk := true }).resp.writes = [] :=
  ⟨rfl, success_201_has_empty_body _ _ rfl⟩

/-- Counterexample to claim C5 as stated: "application/x-foo" is neither a
multipart form-data type nor mappable to any known extension (the
extension lookup succeeds with no candidates), yet the dispatcher answers
201 Created and writes the file under the bare generated token, instead
of reporting 415 with no write. -/
theorem unmappable_type_stored_counterexample :
    mime.ExtensionsByType "application/x-foo" = Except.ok [] ∧
    (upload.ApiEndpoint { method := "POST", contentType := "application/x-foo" }
        { parseFormResult := upload.ParseFormResult.ok, formFile := none,
          uuid := "token123", dirExists := true, mkdirOk := true,
          openOk := true, copyOk := true }).resp.status = some 201 ∧
    (upload.ApiEndpoint { method := "POST", contentType := "application/x-foo" }
        { parseFormResult := upload.ParseFormResult.ok, formFile := none,
          uuid := "token123", dirExists := true, mkdirOk := true,
          openOk := true, copyOk := true }).fs.fileWritten
      = some "./files/token123" :=
  ⟨rfl, rfl, rfl⟩

/-- Claim C5, amended: for a POST whose Content-Type is not multipart,
a header the media-type parser rejects yields 500 Internal Server Error
with no file written, while a parseable media type with no registered
extensions is persisted anyway — 201 Created, the file stored under the
generated token with no extension.  The dispatcher's 415 branch only
fires on the `http.ErrNotSupported` sentinel, which `handleOther` returns
only for multipart requests that `handleForm` already consumed, so an
unsupported media type is never answered 415. -/
theorem unmappable_type_behavior (req : upload.Request) (env : upload.Env)
    (hm : req.method = "POST")
    (hct : upload.isMultipartFormData req.contentType = false) :
    (∀ e, mime.ExtensionsByType req.contentType = Except.error e →
      (upload.ApiEndpoint req env).resp.status = some 500 ∧
      (upload.ApiEndpoint req env).fs.fileWritten = none) ∧
    (mime.ExtensionsByType req.contentType = Except.ok [] →
      env.dirExists = true → env.openOk = true → env.copyOk = true →
      (upload.ApiEndpoint req env).resp.status = some 201 ∧
      (upload.ApiEndpoint req env).fs.fileWritten
        = some (upload.uploadDir ++ env.uuid)) := by
  constructor
  · intro e hE
    simp only [upload.ApiEndpoint, hm, if_pos, upload.handlePost,
      upload.handleForm, hct, Bool.false_eq_true, if_false, upload.handleOther,
      hE, upload.initState, httpErrorResp, writeHeaderOnce]
    simp
  · intro hE hd ho hcp
    simp only [upload.ApiEndpoint, hm, if_pos, upload.handlePost,
      upload.handleForm, hct, Bool.false_eq_true, if_false, upload.handleOther,
      hE, upload.initState, upload.handleFile, upload.createUploadDir, hd, ho,
      hcp, writeHeaderOnce, List.length_nil, gt_iff_lt, lt_irrefl, if_true,
      ite_false, ite_true]
    simp [String.append_empty]

/-- Witness for the amended C5 at the unparseable Content-Type "". -/
theorem unmappable_type_behavior_witness :
    upload.isMultipartFormData "" = false ∧
    (upload.ApiEndpoint { method := "POST", contentType := "" }
        { parseFormResult := upload.ParseFormResult.ok, formFile := none,
          uuid := "u4", dirExists := true, mkdirOk := true,
          openOk := true, copyOk := true }).resp.status = some 500 ∧
    (upload.ApiEndpoint { method := "POST", contentType := "" }
        { parseFormResult := upload.ParseFormResult.ok, formFile := none,
          uuid := "u4", dirExists := true, mkdirOk := true,
          openOk := true, copyOk := true }).fs.fileWritten = none :=
  ⟨rfl,
   (unmappable_type_behavior { method := "POST", contentType := "" }
     { parseFormResult := upload.ParseFormResult.ok, formFile := none,
       uuid := "u4", dirExists := true, mkdirOk := true,
       openOk := true, copyOk := true } rfl rfl).1 "mime: no media type" rfl⟩

/-- The extension choice claim C8 attributes to the code: the first
candidate whose suffix matches the media type's subtype token, else the
first candidate. -/
def specPreferredExt (subtypeToken : String) (cands : List String) : String :=
  match cands.find? (fun c => upload.strEndsWith c subtypeToken) with
  | some c => c
  | none => cands.headD ""

/-- Counterexample to claim C8 as stated: for the raw-body Content-Type
"text/html;" the media type parses to "text/html" with subtype token
"html" and candidates [".htm", ".html"]; the claim's rule picks ".html",
but the code matches suffixes against `SplitAfter(contentType, "/")[1]`,
the raw header segment "html;", which no candidate matches — so the file
is stored with the first candidate ".htm" instead. -/
theorem extension_choice_counterexample :
    mime.ParseMediaType "text/html;" = Except.ok "text/html" ∧
    mime.ExtensionsByType "text/html;" = Except.ok [".htm", ".html"] ∧
    (upload.ApiEndpoint { method := "POST", contentType := "text/html;" }
        { parseFormResult := upload.ParseFormResult.ok, formFile := none,
          uuid := "u0", dirExists := true, mkdirOk := true,
          openOk := true, copyOk := true }).fs.fileWritten
      = some "./files/u0.htm" ∧
    specPreferredExt "html" [".htm", ".html"] = ".html" ∧
    (".htm" : String) ≠ ".html" :=
  ⟨rfl, rfl, rfl, rfl, by decide⟩

/-- The candidate scan of `handleOther` is a first-match search. -/
theorem extLoop_eq_find (cands : List String) (pref : String) :
    upload.extLoop cands pref
      = (cands.find? (fun c => upload.strEndsWith c pref)).getD "" := by
  induction cands with
  | nil => rfl
  | cons c cs ih =>
    by_cases h : upload.strEndsWith c pref <;>
      simp [upload.extLoop, List.find?, h, ih]

/-- Claim C8, amended: for every raw-body upload whose content type has a
non-empty candidate list, the chosen extension is the first candidate
whose suffix matches the segment of the raw Content-Type header value
after its first slash (compared case-sensitively, with any parameters
included), falling back to the first candidate when none matches; the
stored file name is the generated token concatenated with that
extension. -/
theorem raw_extension_choice (req : upload.Request) (env : upload.Env)
    (cands : List String)
    (hm : req.method = "POST")
    (hct : upload.isMultipartFormData req.contentType = false)
    (hE : mime.ExtensionsByType req.contentType = Except.ok cands)
    (hne : cands ≠ [])
    (hd : env.dirExists = true) (ho : env.openOk = true) (hcp : env.copyOk = true) :
    (upload.ApiEndpoint req env).fs.fileWritten
      = some (upload.uploadDir ++ env.uuid ++
          (let preferred := ((upload.goSplitAfter req.contentType '/').drop 1).headD ""
           let found := (cands.find? (fun c => upload.strEndsWith c preferred)).getD ""
           if found = "" then cands.headD "" else found)) := by
  have hlen : cands.length > 0 := by
    cases cands
    · simp at hne
    · simp
  simp only [upload.ApiEndpoint, hm, if_pos, upload.handlePost, upload.handleForm,
    hct, Bool.false_eq_true, if_false, upload.handleOther, hE, upload.initState,
    upload.handleFile, upload.createUploadDir, hd, ho, hcp, writeHeaderOnce,
    hlen, if_true, extLoop_eq_find]
  simp [extLoop_eq_find, hlen]

/-- Witness for the amended C8 at the bare Content-Type "text/html",
where the raw segment after the slash is the subtype itself and the
matching candidate ".html" is chosen. -/
theorem raw_extension_choice_witness :
    mime.ExtensionsByType "text/html" = Except.ok [".htm", ".html"] ∧
    (upload.ApiEndpoint { method := "POST", contentType := "text/html" }
        { parseFormResult := upload.ParseFormResult.ok, formFile := none,
          uuid := "u1", dirExists := true, mkdirOk := true,
          openOk := true, copyOk := true }).fs.fileWritten
      = some "./files/u1.html" :=
  ⟨rfl,
   (raw_extension_choice { method := "POST", contentType := "text/html" }
     { parseFormResult := upload.ParseFormResult.ok, formFile := none,
       uuid := "u1", dirExists := true, mkdirOk := true,
       openOk := true, copyOk := true }
     [".htm", ".html"] rfl (by decide) rfl (by decide) rfl rfl rfl).trans rfl⟩
